import Mathlib

/-!
Verification of the Collaborative-Lists real-time synchronization engine.

This file shallowly embeds the worker-side List Coordinator
(src/worker/src/list-do.ts: class ListDO) and the share handlers of the
main worker (handleAddShare / handleUpdateShare / handleRemoveShare),
and proves or refutes properties of them.

Modelling conventions:
- JavaScript Map objects become association lists (List (String × α))
  with JS Map semantics: set replaces in place or appends at the end,
  get returns the first binding, delete removes all bindings of the key.
- JS object spread over field records becomes objMerge, which keeps
  insertion order of the original keys and lets the new record override.
- Uint8Array byte strings become List Nat.
- ws.send is modelled with a sendOk flag per connected client: a client
  whose sendOk is false makes send throw (the catch branch of the code
  then deletes the client from the registry).
- Each operation returns, besides the new state, the ordered list of
  observable effects (storage writes and socket sends) it performs.
-/

namespace CollabLists

/-- Role of a session, as in the worker types (src/worker/src/types.ts). -/
inductive Role where
  | owner
  | editor
  | viewer
deriving DecidableEq, Repr

/-- Item (src/worker/src/types.ts): `fields` is a JS object from field id
to value; values are modelled as strings since the engine never interprets
them. -/
structure Item where
  id : String
  fields : List (String × String)
  checked : Bool
  updatedAt : Nat
deriving DecidableEq, Repr

/-- PresenceUser (src/worker/src/types.ts). -/
structure PresenceUser where
  email : String
  name : String
  color : String
deriving DecidableEq, Repr

/-- ConnectedClient (src/worker/src/list-do.ts): the ws handle is modelled
by the single observable bit sendOk (whether ws.send succeeds). -/
structure ConnectedClient where
  user : PresenceUser
  role : Role
  sendOk : Bool
deriving DecidableEq, Repr

/-- Wire messages of the protocol (the `type`-tagged JSON messages plus
raw binary frames) as sent by ListDO. -/
inductive WSMessage where
  | itemsChanged (items : List Item)
  | itemAdded (item : Item)
  | itemUpdated (item : Item)
  | itemDeleted (itemId : String)
  | schemaChanged
  | presence (users : List PresenceUser)
  | error (message : String)
  | crdtSync (data : List Nat)
  | crdtUpdate (data : List Nat)
  | binaryFrame (data : List Nat)
deriving DecidableEq, Repr

/-- Observable effects of one ListDO operation, in execution order:
storage writes (state.storage.put) and socket sends (ws.send). -/
inductive Event where
  | persistItems (items : List (String × Item))
  | persistYjs (doc : List Nat)
  | sendTo (clientKey : String) (msg : WSMessage)
deriving DecidableEq, Repr

/-! ### JS Map semantics on association lists -/

/-- Map.get: first binding of the key. -/
def mapGet : List (String × α) → String → Option α
  | [], _ => none
  | p :: rest, k => if p.1 = k then some p.2 else mapGet rest k

/-- Map.set: replace in place if the key is bound, else append at the end. -/
def mapSet : List (String × α) → String → α → List (String × α)
  | [], k, v => [(k, v)]
  | p :: rest, k, v => if p.1 = k then (k, v) :: rest else p :: mapSet rest k v

/-- Map.delete: remove the key's bindings. -/
def mapDelete (m : List (String × α)) (k : String) : List (String × α) :=
  m.filter (fun p => p.1 != k)

/-- Map.values, in insertion order. -/
def mapValues (m : List (String × α)) : List α :=
  m.map (fun p => p.2)

/-- JS object spread \x7b...a, ...b\x7d: keys of a keep their position
(with b's value when b also binds them), new keys of b are appended. -/
def objMerge (a b : List (String × String)) : List (String × String) :=
  a.map (fun p =>
      match mapGet b p.1 with
      | some v => (p.1, v)
      | none => p)
    ++ b.filter (fun p => (mapGet a p.1).isNone)

/-! ### The ListDO state and its operations -/

/-- The mutable state of one ListDO instance that the claims concern:
the session registry, the item store and the accumulated Yjs ledger
bytes (null until the first delta arrives, as in the source). -/
structure DOState where
  clients : List (String × ConnectedClient)
  items : List (String × Item)
  yjsDocState : Option (List Nat)
deriving DecidableEq, Repr

/-- ListDO.broadcast: iterate the registry in insertion order, skip the
excluded key, try to send; a failing client is deleted from the registry
and iteration continues. Returns the surviving registry and the sends
performed. -/
def broadcast : List (String × ConnectedClient) → WSMessage → Option String →
    List (String × ConnectedClient) × List Event
  | [], _, _ => ([], [])
  | (k, c) :: rest, msg, ex =>
    let r := broadcast rest msg ex
    if ex = some k then ((k, c) :: r.1, r.2)
    else if c.sendOk then ((k, c) :: r.1, Event.sendTo k msg :: r.2)
    else (r.1, r.2)

/-- De-duplicated (by email) presence list, in registry order
(ListDO.broadcastPresence). -/
def presenceLoop : List (String × ConnectedClient) → List String → List PresenceUser
  | [], _ => []
  | (_, c) :: rest, seen =>
    if seen.contains c.user.email then presenceLoop rest seen
    else c.user :: presenceLoop rest (c.user.email :: seen)

/-- The users array broadcast by ListDO.broadcastPresence. -/
def presenceUsers (clients : List (String × ConnectedClient)) : List PresenceUser :=
  presenceLoop clients []

/-- The ledger accumulation of the source (both the binary branch and the
crdt-update branch): concatenate the update after the stored state, or
adopt the update when no state is stored. The source comment itself says
a production system would use the Yjs merge instead. -/
def concatLedger (st : Option (List Nat)) (update : List Nat) : List Nat :=
  match st with
  | some s => s ++ update
  | none => update

/-- Partial<Item> as sent to the PATCH /item/ handler; updatedAt is not
modelled because the handler overrides it with Date.now() regardless. -/
structure ItemPatch where
  id : Option String := none
  fields : Option (List (String × String)) := none
  checked : Option Bool := none
deriving DecidableEq, Repr

/-- The spread \x7b...existing, ...updates, updatedAt: Date.now()\x7d of the
PATCH /item/ handler. -/
def applyPatch (existing : Item) (p : ItemPatch) (now : Nat) : Item :=
  { id := p.id.getD existing.id
    fields := p.fields.getD existing.fields
    checked := p.checked.getD existing.checked
    updatedAt := now }

/-- POST /item branch of ListDO.fetch: upsert the item by its id, persist,
broadcast item-added to every client (no exclusion). -/
def postItem (s : DOState) (item : Item) : DOState × List Event :=
  let items' := mapSet s.items item.id item
  let b := broadcast s.clients (WSMessage.itemAdded item) none
  ({ s with items := items', clients := b.1 }, Event.persistItems items' :: b.2)

/-- PATCH /item/ branch of ListDO.fetch. The third component is the
response body: none models the 404 Not-found response, some the JSON of
the updated item. -/
def patchItem (s : DOState) (now : Nat) (itemId : String) (p : ItemPatch) :
    DOState × List Event × Option Item :=
  match mapGet s.items itemId with
  | none => (s, [], none)
  | some existing =>
    let updated := applyPatch existing p now
    let items' := mapSet s.items itemId updated
    let b := broadcast s.clients (WSMessage.itemUpdated updated) none
    ({ s with items := items', clients := b.1 }, Event.persistItems items' :: b.2, some updated)

/-- DELETE /item/ branch of ListDO.fetch: delete (a no-op on the map when
the id is unbound), persist, broadcast item-deleted. -/
def deleteItem (s : DOState) (itemId : String) : DOState × List Event :=
  let items' := mapDelete s.items itemId
  let b := broadcast s.clients (WSMessage.itemDeleted itemId) none
  ({ s with items := items', clients := b.1 }, Event.persistItems items' :: b.2)

/-- The loop of the clear-done branch: for each checked id, delete it and
immediately broadcast item-deleted; saveItems only runs after the loop. -/
def clearDoneLoop (clients : List (String × ConnectedClient))
    (items : List (String × Item)) :
    List String → List (String × ConnectedClient) × List (String × Item) × List Event
  | [] => (clients, items, [])
  | id :: rest =>
    let items' := mapDelete items id
    let b := broadcast clients (WSMessage.itemDeleted id) none
    let r := clearDoneLoop b.1 items' rest
    (r.1, r.2.1, b.2 ++ r.2.2)

/-- POST /clear-done branch of ListDO.fetch. -/
def clearDone (s : DOState) : DOState × List Event :=
  let toDelete := (s.items.filter (fun p => p.2.checked)).map (fun p => p.1)
  let r := clearDoneLoop s.clients s.items toDelete
  ({ s with clients := r.1, items := r.2.1 }, r.2.2 ++ [Event.persistItems r.2.1])

/-- The client-originated messages handled inside handleWebSocket's
message listener: a raw binary Yjs frame, or the JSON intents. -/
inductive ClientMessage where
  | binaryUpdate (data : List Nat)
  | crdtUpdate (data : List Nat)
  | itemToggle (itemId : String) (checked : Bool)
  | itemUpdateFields (itemId : String) (fields : List (String × String))
deriving DecidableEq, Repr

/-- The message listener of ListDO.handleWebSocket, with clientKey and
userRole captured from the connection. `now` stands for Date.now(). -/
def handleMessage (s : DOState) (clientKey : String) (userRole : Role) (now : Nat) :
    ClientMessage → DOState × List Event
  | .binaryUpdate data =>
    if userRole = Role.viewer then (s, [])
    else
      let merged := concatLedger s.yjsDocState data
      let b := broadcast s.clients (WSMessage.binaryFrame data) (some clientKey)
      ({ s with yjsDocState := some merged, clients := b.1 },
        Event.persistYjs merged :: b.2)
  | .crdtUpdate data =>
    if userRole = Role.viewer then
      (s, [Event.sendTo clientKey (WSMessage.error "View-only access")])
    else
      let merged := concatLedger s.yjsDocState data
      let b := broadcast s.clients (WSMessage.crdtUpdate data) (some clientKey)
      ({ s with yjsDocState := some merged, clients := b.1 },
        Event.persistYjs merged :: b.2)
  | .itemToggle itemId checked =>
    if userRole = Role.viewer then
      (s, [Event.sendTo clientKey (WSMessage.error "View-only access")])
    else
      match mapGet s.items itemId with
      | none => (s, [])
      | some item =>
        let item' := { item with checked := checked, updatedAt := now }
        let items' := mapSet s.items itemId item'
        let b := broadcast s.clients (WSMessage.itemUpdated item') none
        ({ s with items := items', clients := b.1 },
          Event.persistItems items' :: b.2)
  | .itemUpdateFields itemId fields =>
    if userRole = Role.viewer then
      (s, [Event.sendTo clientKey (WSMessage.error "View-only access")])
    else
      match mapGet s.items itemId with
      | none => (s, [])
      | some item =>
        let item' := { item with fields := objMerge item.fields fields, updatedAt := now }
        let items' := mapSet s.items itemId item'
        let b := broadcast s.clients (WSMessage.itemUpdated item') (some clientKey)
        ({ s with items := items', clients := b.1 },
          Event.persistItems items' :: b.2)

/-- Connection acceptance in ListDO.handleWebSocket: register the session,
send it the items snapshot, send it the ledger bytes when nonempty, then
broadcast presence (over the registry that now includes the new session). -/
def connect (s : DOState) (clientKey : String) (c : ConnectedClient) :
    DOState × List Event :=
  let clients := mapSet s.clients clientKey c
  let ledgerSync : List Event :=
    match s.yjsDocState with
    | some d => if 0 < d.length then [Event.sendTo clientKey (WSMessage.crdtSync d)] else []
    | none => []
  let b := broadcast clients (WSMessage.presence (presenceUsers clients)) none
  ({ s with clients := b.1 },
    Event.sendTo clientKey (WSMessage.itemsChanged (mapValues s.items)) :: (ledgerSync ++ b.2))

/-! ### A uniform view of the mutation operations, for the durability claim -/

/-- All mutation operations of one list: the item CRUD routes of
ListDO.fetch and the socket-borne client messages. -/
inductive MutOp where
  | postItemOp (item : Item)
  | patchItemOp (itemId : String) (p : ItemPatch)
  | deleteItemOp (itemId : String)
  | clearDoneOp
  | wsOp (clientKey : String) (role : Role) (m : ClientMessage)
deriving DecidableEq, Repr

/-- Dispatch a mutation operation to its handler. -/
def applyMutOp (s : DOState) (now : Nat) : MutOp → DOState × List Event
  | .postItemOp item => postItem s item
  | .patchItemOp itemId p =>
    let r := patchItem s now itemId p
    (r.1, r.2.1)
  | .deleteItemOp itemId => deleteItem s itemId
  | .clearDoneOp => clearDone s
  | .wsOp key role m => handleMessage s key role now m

/-- Is this event a storage write? -/
def isPersist : Event → Bool
  | .persistItems _ => true
  | .persistYjs _ => true
  | _ => false

/-- Is this event the broadcast of a mutation result (as opposed to an
error reply, a snapshot or a presence update)? -/
def isMutationBroadcast : Event → Bool
  | .sendTo _ m =>
    match m with
    | .itemAdded _ => true
    | .itemUpdated _ => true
    | .itemDeleted _ => true
    | .crdtUpdate _ => true
    | .binaryFrame _ => true
    | _ => false
  | _ => false

/-- durableBefore seen evs: scanning evs left to right, no mutation
broadcast occurs before the first storage write (seen records whether a
write already happened). -/
def durableBefore : Bool → List Event → Bool
  | _, [] => true
  | seen, e :: rest =>
    if isMutationBroadcast e && !seen then false
    else durableBefore (seen || isPersist e) rest

/-- The messages delivered to one client key, in order. -/
def msgsTo (key : String) (evs : List Event) : List WSMessage :=
  evs.filterMap (fun e =>
    match e with
    | .sendTo k m => if k = key then some m else none
    | _ => none)

/-- The keys that receive a send, in order. -/
def sendKeys (evs : List Event) : List String :=
  evs.filterMap (fun e =>
    match e with
    | .sendTo k _ => some k
    | _ => none)

/-! ### The share handlers of the main worker -/

/-- Role stored in a share entry ('viewer' | 'editor'). -/
inductive ShareRole where
  | viewer
  | editor
deriving DecidableEq, Repr

/-- Share (src/worker/src/types.ts); the optional display name/color used
only for GET enrichment are not modelled. -/
structure Share where
  email : String
  role : ShareRole
deriving DecidableEq, Repr

/-- The part of ListMeta the share handlers touch. -/
structure ListMeta where
  id : String
  name : String
  ownerEmail : String
  shares : List Share
deriving DecidableEq, Repr

/-- String.prototype.toLowerCase restricted to the character-wise case
mapping (kernel-computable stand-in for String.toLower). -/
def lowerString (s : String) : String :=
  ⟨s.data.map Char.toLower⟩

/-- Split a character list at commas (stand-in for String.split). -/
def splitCommaAux : List Char → List Char → List (List Char)
  | [], acc => [acc.reverse]
  | c :: rest, acc =>
    if c = ',' then acc.reverse :: splitCommaAux rest []
    else splitCommaAux rest (c :: acc)

/-- allowedEmails.split of the source. -/
def splitComma (s : String) : List String :=
  (splitCommaAux s.data []).map (fun l => ⟨l⟩)

/-- String.prototype.trim for spaces (kernel-computable stand-in). -/
def trimSpaces (s : String) : String :=
  ⟨((s.data.dropWhile (fun c => c = ' ')).reverse.dropWhile (fun c => c = ' ')).reverse⟩

/-- isAllowedEmail of src/worker/src/auth.ts. -/
def isAllowedEmail (email : String) (allowedEmails : String) : Bool :=
  ((splitComma allowedEmails).map (fun e => lowerString (trimSpaces e))).contains
    (lowerString email)

/-- handleAddShare success/failure, with Response bodies abstracted to
none (any of the 404/403/400 error responses, which leave meta unchanged)
or some of the updated meta that is written back to KV. -/
def handleAddShare (meta : ListMeta) (userEmail allowedEmails email : String)
    (role : ShareRole) : Option ListMeta :=
  if meta.ownerEmail ≠ userEmail then none
  else if ¬ isAllowedEmail email allowedEmails then none
  else if lowerString email = userEmail then none
  else if meta.shares.any (fun s => s.email == lowerString email) then none
  else some { meta with shares := meta.shares ++ [{ email := lowerString email, role := role }] }

/-- The in-place role mutation of handleUpdateShare: the first share found
with the target email gets the new role. -/
def setShareRole : List Share → String → ShareRole → List Share
  | [], _, _ => []
  | s :: rest, e, r =>
    if s.email = e then { s with role := r } :: rest
    else s :: setShareRole rest e r

/-- handleUpdateShare; targetEmail stands for the already URI-decoded path
segment. -/
def handleUpdateShare (meta : ListMeta) (userEmail targetEmail : String)
    (role : ShareRole) : Option ListMeta :=
  if meta.ownerEmail ≠ userEmail then none
  else if meta.shares.any (fun s => s.email == lowerString targetEmail) then
    some { meta with shares := setShareRole meta.shares (lowerString targetEmail) role }
  else none

/-- handleRemoveShare. -/
def handleRemoveShare (meta : ListMeta) (userEmail targetEmail : String) :
    Option ListMeta :=
  if meta.ownerEmail ≠ userEmail then none
  else some { meta with shares := meta.shares.filter (fun s => s.email != lowerString targetEmail) }

/-- The three share operations. -/
inductive ShareOp where
  | add (email : String) (role : ShareRole)
  | update (targetEmail : String) (role : ShareRole)
  | remove (targetEmail : String)
deriving DecidableEq, Repr

/-- Dispatch a share operation to its handler. -/
def applyShareOp (meta : ListMeta) (userEmail allowedEmails : String) :
    ShareOp → Option ListMeta
  | .add email role => handleAddShare meta userEmail allowedEmails email role
  | .update target role => handleUpdateShare meta userEmail target role
  | .remove target => handleRemoveShare meta userEmail target

/-- The share-set invariant of the spec: the owner's identity never
appears in the shares set, and every identity appears at most once. -/
def sharesInvariant (meta : ListMeta) : Prop :=
  (∀ s ∈ meta.shares, s.email ≠ meta.ownerEmail) ∧
    (meta.shares.map Share.email).Nodup

instance (meta : ListMeta) : Decidable (sharesInvariant meta) := by
  unfold sharesInvariant; infer_instance

/-! ### Helper lemmas -/

/-- Once a storage write has been seen, the rest of the trace is accepted. -/
theorem durableBefore_true : ∀ evs : List Event, durableBefore true evs = true := by
  intro evs
  induction evs with
  | nil => rfl
  | cons e rest ih => simpa [durableBefore] using ih

/-- Unfolding equation of broadcast on a nonempty registry. -/
theorem broadcast_cons (k : String) (c : ConnectedClient)
    (rest : List (String × ConnectedClient)) (msg : WSMessage) (ex : Option String) :
    broadcast ((k, c) :: rest) msg ex =
      if ex = some k then
        ((k, c) :: (broadcast rest msg ex).1, (broadcast rest msg ex).2)
      else if c.sendOk then
        ((k, c) :: (broadcast rest msg ex).1,
          Event.sendTo k msg :: (broadcast rest msg ex).2)
      else broadcast rest msg ex := by
  rfl

/-- Every event emitted by broadcast is a send of the broadcast message to
a non-excluded key. -/
theorem broadcast_events_shape :
    ∀ (l : List (String × ConnectedClient)) (msg : WSMessage) (ex : Option String)
      (e : Event), e ∈ (broadcast l msg ex).2 →
      ∃ k, e = Event.sendTo k msg ∧ ex ≠ some k := by
  intro l msg ex
  induction l with
  | nil => intro e he; simp [broadcast] at he
  | cons p rest ih =>
    intro e he
    obtain ⟨k, c⟩ := p
    rw [broadcast_cons] at he
    split_ifs at he with hex hok
    · exact ih e he
    · rcases List.mem_cons.mp he with h | h
      · exact ⟨k, h, hex⟩
      · exact ih e h
    · exact ih e he

/-- broadcast delivers the message to every non-excluded registered client
whose send succeeds, regardless of the other clients. -/
theorem broadcast_delivers :
    ∀ (l : List (String × ConnectedClient)) (msg : WSMessage) (ex : Option String)
      (k : String) (c : ConnectedClient), (k, c) ∈ l → ex ≠ some k → c.sendOk = true →
      Event.sendTo k msg ∈ (broadcast l msg ex).2 := by
  intro l msg ex k c hmem hex hok
  induction l with
  | nil => simp at hmem
  | cons p rest ih =>
    obtain ⟨k', c'⟩ := p
    rw [broadcast_cons]
    rcases List.mem_cons.mp hmem with h | h
    · rw [Prod.mk.injEq] at h
      obtain ⟨h1, h2⟩ := h
      subst h1; subst h2
      rw [if_neg hex, if_pos hok]
      exact List.mem_cons_self _ _
    · have hrec := ih h
      split_ifs with hex' hok'
      · exact hrec
      · exact List.mem_cons_of_mem _ hrec
      · exact hrec

/-- Every client surviving a broadcast was registered before it, and was
either excluded or had a succeeding send. -/
theorem broadcast_mem_fst :
    ∀ (l : List (String × ConnectedClient)) (msg : WSMessage) (ex : Option String)
      (p : String × ConnectedClient), p ∈ (broadcast l msg ex).1 →
      p ∈ l ∧ (ex = some p.1 ∨ p.2.sendOk = true) := by
  intro l msg ex
  induction l with
  | nil => intro p hp; simp [broadcast] at hp
  | cons q rest ih =>
    intro p hp
    obtain ⟨k, c⟩ := q
    rw [broadcast_cons] at hp
    split_ifs at hp with hex hok
    · rcases List.mem_cons.mp hp with h | h
      · subst h; exact ⟨List.mem_cons_self _ _, Or.inl hex⟩
      · obtain ⟨h1, h2⟩ := ih p h
        exact ⟨List.mem_cons_of_mem _ h1, h2⟩
    · rcases List.mem_cons.mp hp with h | h
      · subst h; exact ⟨List.mem_cons_self _ _, Or.inr hok⟩
      · obtain ⟨h1, h2⟩ := ih p h
        exact ⟨List.mem_cons_of_mem _ h1, h2⟩
    · obtain ⟨h1, h2⟩ := ih p hp
      exact ⟨List.mem_cons_of_mem _ h1, h2⟩

/-- A key receiving a send appears through some sent message. -/
theorem sendKeys_mem {evs : List Event} {k : String} (h : k ∈ sendKeys evs) :
    ∃ m, Event.sendTo k m ∈ evs := by
  unfold sendKeys at h
  rw [List.mem_filterMap] at h
  obtain ⟨e, he, hk⟩ := h
  cases e with
  | persistItems l => simp at hk
  | persistYjs d => simp at hk
  | sendTo k' m =>
    simp only [Option.some.injEq] at hk
    subst hk
    exact ⟨m, he⟩

/-- A cons binding that misses a key splits into head and tail misses. -/
theorem mapGet_cons_none {p : String × α} {rest : List (String × α)} {k : String}
    (h : mapGet (p :: rest) k = none) : p.1 ≠ k ∧ mapGet rest k = none := by
  by_cases hp : p.1 = k
  · rw [show mapGet (p :: rest) k = if p.1 = k then some p.2 else mapGet rest k from rfl,
      if_pos hp] at h
    exact absurd h (by simp)
  · refine ⟨hp, ?_⟩
    rwa [show mapGet (p :: rest) k = if p.1 = k then some p.2 else mapGet rest k from rfl,
      if_neg hp] at h

/-- Map.set of an unbound key appends the binding at the end. -/
theorem mapSet_fresh {l : List (String × α)} {k : String} (v : α)
    (h : mapGet l k = none) : mapSet l k v = l ++ [(k, v)] := by
  induction l with
  | nil => rfl
  | cons p rest ih =>
    obtain ⟨hne, hrest⟩ := mapGet_cons_none h
    rw [show mapSet (p :: rest) k v =
        if p.1 = k then (k, v) :: rest else p :: mapSet rest k v from rfl,
      if_neg hne, ih hrest]
    rfl

/-- broadcast distributes over registry concatenation. -/
theorem broadcast_append (l1 l2 : List (String × ConnectedClient)) (msg : WSMessage)
    (ex : Option String) :
    broadcast (l1 ++ l2) msg ex =
      ((broadcast l1 msg ex).1 ++ (broadcast l2 msg ex).1,
        (broadcast l1 msg ex).2 ++ (broadcast l2 msg ex).2) := by
  induction l1 with
  | nil => simp [broadcast]
  | cons p rest ih =>
    obtain ⟨k, c⟩ := p
    rw [List.cons_append, broadcast_cons, broadcast_cons]
    split_ifs with hex hok <;> simp [ih]

/-- Sends to uninvolved event kinds do not contribute to msgsTo. -/
theorem msgsTo_cons_sendTo (k key : String) (m : WSMessage) (evs : List Event) :
    msgsTo key (Event.sendTo k m :: evs) =
      if k = key then m :: msgsTo key evs else msgsTo key evs := by
  by_cases h : k = key <;> simp [msgsTo, List.filterMap_cons, h]

/-- msgsTo distributes over trace concatenation. -/
theorem msgsTo_append (key : String) (a b : List Event) :
    msgsTo key (a ++ b) = msgsTo key a ++ msgsTo key b := by
  simp [msgsTo, List.filterMap_append]

/-- A key with no registry binding receives nothing from a broadcast. -/
theorem msgsTo_broadcast_absent :
    ∀ (l : List (String × ConnectedClient)) (msg : WSMessage) (ex : Option String)
      (key : String), mapGet l key = none → msgsTo key (broadcast l msg ex).2 = [] := by
  intro l msg ex key h
  induction l with
  | nil => rfl
  | cons p rest ih =>
    obtain ⟨k, c⟩ := p
    obtain ⟨hne, hrest⟩ := mapGet_cons_none h
    rw [broadcast_cons]
    split_ifs with hex hok
    · exact ih hrest
    · rw [show ((k, c) :: (broadcast rest msg ex).1,
          Event.sendTo k msg :: (broadcast rest msg ex).2).2 =
          Event.sendTo k msg :: (broadcast rest msg ex).2 from rfl,
        msgsTo_cons_sendTo, if_neg hne]
      exact ih hrest
    · exact ih hrest

/-- Deleting an unbound key leaves the map unchanged. -/
theorem mapDelete_absent {l : List (String × α)} {k : String}
    (h : mapGet l k = none) : mapDelete l k = l := by
  induction l with
  | nil => rfl
  | cons p rest ih =>
    obtain ⟨hne, hrest⟩ := mapGet_cons_none h
    have h2 := ih hrest
    simp only [mapDelete] at h2 ⊢
    simp [List.filter_cons, hne, h2]

/-- setShareRole changes roles only: the email column is untouched. -/
theorem setShareRole_map_email (l : List Share) (e : String) (r : ShareRole) :
    (setShareRole l e r).map Share.email = l.map Share.email := by
  induction l with
  | nil => rfl
  | cons s rest ih =>
    by_cases h : s.email = e <;> simp [setShareRole, h, ih]

/-- Setting a key makes it readable. -/
theorem mapGet_mapSet_self (l : List (String × α)) (k : String) (v : α) :
    mapGet (mapSet l k v) k = some v := by
  induction l with
  | nil => simp [mapSet, mapGet]
  | cons p rest ih =>
    by_cases h : p.1 = k
    · simp [mapSet, mapGet, h]
    · simp [mapSet, mapGet, h, ih]

/-- Setting a key leaves the other keys' bindings unchanged. -/
theorem mapGet_mapSet_ne (l : List (String × α)) (k k' : String) (v : α)
    (h : k' ≠ k) : mapGet (mapSet l k v) k' = mapGet l k' := by
  induction l with
  | nil => simp [mapSet, mapGet, Ne.symm h]
  | cons p rest ih =>
    by_cases hp : p.1 = k
    · subst hp
      simp [mapSet, mapGet, Ne.symm h]
    · by_cases hp' : p.1 = k' <;> simp [mapSet, mapGet, hp, hp', h, ih]

/-- Setting an already-bound key keeps the key column unchanged. -/
theorem mapSet_keys_of_mem (l : List (String × α)) (k : String) (v w : α)
    (h : mapGet l k = some w) : (mapSet l k v).map Prod.fst = l.map Prod.fst := by
  induction l with
  | nil => simp [mapGet] at h
  | cons p rest ih =>
    by_cases hp : p.1 = k
    · simp [mapSet, hp]
    · rw [show mapGet (p :: rest) k = if p.1 = k then some p.2 else mapGet rest k from rfl,
        if_neg hp] at h
      simp [mapSet, hp, ih h]

/-- mapGet searches an append left to right. -/
theorem mapGet_append (l1 l2 : List (String × α)) (k : String) :
    mapGet (l1 ++ l2) k =
      match mapGet l1 k with
      | some v => some v
      | none => mapGet l2 k := by
  induction l1 with
  | nil => rfl
  | cons p rest ih => by_cases h : p.1 = k <;> simp [mapGet, h, ih]

/-- Lookup in the overridden copy of a: a's keys, with b's values where
b binds them. -/
theorem mapGet_map_override (a b : List (String × String)) (k : String) :
    mapGet (a.map (fun p =>
      match mapGet b p.1 with
      | some v => (p.1, v)
      | none => p)) k =
      (mapGet a k).map (fun v => (mapGet b k).getD v) := by
  induction a with
  | nil => rfl
  | cons p rest ih =>
    cases hb : mapGet b p.1 with
    | some w =>
      by_cases hk : p.1 = k
      · subst hk
        simp [mapGet, hb]
      · simp [mapGet, hb, hk, ih]
    | none =>
      by_cases hk : p.1 = k
      · subst hk
        simp [mapGet, hb]
      · simp [mapGet, hb, hk, ih]

/-- Filtering b by keys unbound in a does not hide the key k when a does
not bind k. -/
theorem mapGet_filter_keep (a b : List (String × String)) (k : String)
    (ha : mapGet a k = none) :
    mapGet (b.filter (fun p => (mapGet a p.1).isNone)) k = mapGet b k := by
  induction b with
  | nil => rfl
  | cons q rest ih =>
    by_cases hk : q.1 = k
    · have hkeep : (mapGet a q.1).isNone = true := by rw [hk, ha]; rfl
      simp [List.filter_cons, hkeep, mapGet, hk, ha]
    · by_cases hkeep : (mapGet a q.1).isNone = true
      · simp [List.filter_cons, hkeep, mapGet, hk, ih]
      · simp [List.filter_cons, hkeep, mapGet, hk, ih]

/-- Lookup through the JS spread merge: the new record wins on the keys
it binds, the old record answers everywhere else. -/
theorem mapGet_objMerge (a b : List (String × String)) (k : String) :
    mapGet (objMerge a b) k =
      match mapGet b k with
      | some v => some v
      | none => mapGet a k := by
  unfold objMerge
  rw [mapGet_append, mapGet_map_override]
  cases ha : mapGet a k with
  | none =>
    cases hbk : mapGet b k <;>
      simp [mapGet_filter_keep a b k ha, hbk]
  | some v =>
    cases hbk : mapGet b k <;> simp [hbk]

/-! ### Theorems -/

/-- Claim C1. The claim states that merging ledger deltas into the stored
ledger state is commutative because deltas are combined with the
replicated-data algorithm's native merge. The code instead concatenates
the raw delta bytes onto the stored state (its own comment says a real
merge would be used in production), so the stored document depends on the
order of arrival: delivering delta [1] then [2] to an empty ledger stores
[1, 2], the reverse order stores [2, 1]. -/
theorem c1_ledger_concat_order_dependent :
    ((handleMessage
        ((handleMessage { clients := [], items := [], yjsDocState := none }
          "a" Role.editor 0 (ClientMessage.crdtUpdate [1])).1)
        "a" Role.editor 0 (ClientMessage.crdtUpdate [2])).1).yjsDocState ≠
      ((handleMessage
        ((handleMessage { clients := [], items := [], yjsDocState := none }
          "a" Role.editor 0 (ClientMessage.crdtUpdate [2])).1)
        "a" Role.editor 0 (ClientMessage.crdtUpdate [1])).1).yjsDocState := by
  decide

/-- Claim C2, counterexample. The clear-done branch broadcasts each
item-deleted message inside its loop and only persists the item store
after the loop, so with one connected session and one checked item the
effect trace has a mutation broadcast before any storage write. -/
theorem c2_clear_done_broadcasts_before_persist :
    durableBefore false
      (applyMutOp
        { clients := [("k", { user := { email := "u@x", name := "U", color := "#000" },
                              role := Role.editor, sendOk := true })],
          items := [("a", { id := "a", fields := [], checked := true, updatedAt := 0 })],
          yjsDocState := none }
        0 MutOp.clearDoneOp).2 = false := by
  decide

/-- Claim C2, amended. For every mutation operation other than clear-done
(add, update, update-fields, toggle, delete, ledger delta in either
encoding), the mutated state is persisted before any broadcast of that
mutation is sent; clear-done instead broadcasts its per-item deletions
before the single persistence write. -/
theorem c2_mutation_persisted_before_broadcast (s : DOState) (now : Nat) (op : MutOp)
    (hop : op ≠ MutOp.clearDoneOp) :
    durableBefore false (applyMutOp s now op).2 = true := by
  cases op with
  | postItemOp item =>
    simp [applyMutOp, postItem, durableBefore, isMutationBroadcast, isPersist,
      durableBefore_true]
  | patchItemOp itemId p =>
    cases hm : mapGet s.items itemId with
    | none => simp [applyMutOp, patchItem, hm, durableBefore]
    | some existing =>
      simp [applyMutOp, patchItem, hm, durableBefore, isMutationBroadcast, isPersist,
        durableBefore_true]
  | deleteItemOp itemId =>
    simp [applyMutOp, deleteItem, durableBefore, isMutationBroadcast, isPersist,
      durableBefore_true]
  | clearDoneOp => exact absurd rfl hop
  | wsOp key role m =>
    cases m with
    | binaryUpdate data =>
      by_cases hv : role = Role.viewer
      · simp [applyMutOp, handleMessage, hv, durableBefore]
      · simp [applyMutOp, handleMessage, hv, durableBefore, isMutationBroadcast, isPersist,
          durableBefore_true]
    | crdtUpdate data =>
      by_cases hv : role = Role.viewer
      · simp [applyMutOp, handleMessage, hv, durableBefore, isMutationBroadcast]
      · simp [applyMutOp, handleMessage, hv, durableBefore, isMutationBroadcast, isPersist,
          durableBefore_true]
    | itemToggle itemId checked =>
      by_cases hv : role = Role.viewer
      · simp [applyMutOp, handleMessage, hv, durableBefore, isMutationBroadcast]
      · cases hm : mapGet s.items itemId with
        | none => simp [applyMutOp, handleMessage, hv, hm, durableBefore]
        | some item =>
          simp [applyMutOp, handleMessage, hv, hm, durableBefore, isMutationBroadcast,
            isPersist, durableBefore_true]
    | itemUpdateFields itemId fields =>
      by_cases hv : role = Role.viewer
      · simp [applyMutOp, handleMessage, hv, durableBefore, isMutationBroadcast]
      · cases hm : mapGet s.items itemId with
        | none => simp [applyMutOp, handleMessage, hv, hm, durableBefore]
        | some item =>
          simp [applyMutOp, handleMessage, hv, hm, durableBefore, isMutationBroadcast,
            isPersist, durableBefore_true]

/-- Claim C3, amended. A mutation attempt by a viewer-role session leaves
the whole state (Mutation Store, Ledger and registry) unchanged and sends
no broadcast to any other session; the JSON-encoded intents (crdt-update,
item-toggle, item-update-fields) additionally send exactly one error reply
to the sender, while a binary ledger frame is dropped silently with no
reply at all. -/
theorem c3_viewer_mutation_rejected (s : DOState) (key : String) (now : Nat)
    (m : ClientMessage) :
    handleMessage s key Role.viewer now m =
      (s, match m with
        | ClientMessage.binaryUpdate _ => []
        | _ => [Event.sendTo key (WSMessage.error "View-only access")]) := by
  cases m <;> simp [handleMessage]

/-- Claim C3, counterexample. A viewer sending a ledger delta in the
binary encoding is dropped by a bare return: the handler sends no error
reply at all (the claim demands exactly one error reply to the sender for
every encoding). -/
theorem c3_binary_viewer_gets_no_error_reply :
    (msgsTo "a"
      (handleMessage
        { clients := [("a", { user := { email := "v@x", name := "V", color := "#000" },
                              role := Role.viewer, sendOk := true }),
                      ("b", { user := { email := "e@x", name := "E", color := "#000" },
                              role := Role.editor, sendOk := true })],
          items := [], yjsDocState := none }
        "a" Role.viewer 0 (ClientMessage.binaryUpdate [1])).2).length ≠ 1 := by
  decide

/-- Claim C4, counterexample. The item-toggle branch calls broadcast
without an exclude key, so the originating session "a" receives the
item-updated broadcast for its own toggle (the claim says only bulk-add
acknowledgements are echoed to the sender). -/
theorem c4_toggle_echoes_to_originator :
    Event.sendTo "a"
        (WSMessage.itemUpdated { id := "i1", fields := [], checked := true, updatedAt := 7 }) ∈
      (handleMessage
        { clients := [("a", { user := { email := "u@x", name := "U", color := "#000" },
                              role := Role.editor, sendOk := true }),
                      ("b", { user := { email := "e@x", name := "E", color := "#000" },
                              role := Role.editor, sendOk := true })],
          items := [("i1", { id := "i1", fields := [], checked := false, updatedAt := 0 })],
          yjsDocState := none }
        "a" Role.editor 7 (ClientMessage.itemToggle "i1" true)).2 := by
  decide

/-- Claim C4, amended. A successful item-update-fields mutation is
broadcast to the other connected sessions only: every other registered
session whose send succeeds receives the resulting item state, and the
originating session is never among the recipients; a successful
item-toggle mutation is instead broadcast to every registered session
whose send succeeds, the originator included — so the originator echo is
not limited to bulk-add acknowledgements. -/
theorem c4_update_fields_excludes_toggle_echoes
    (s : DOState) (key : String) (role : Role) (now : Nat)
    (itemId : String) (fields : List (String × String)) (checked : Bool)
    (hr : ¬ role = Role.viewer) :
    key ∉ sendKeys
        (handleMessage s key role now (ClientMessage.itemUpdateFields itemId fields)).2 ∧
      (∀ it, mapGet s.items itemId = some it →
        ∀ k' c', (k', c') ∈ s.clients → ¬ k' = key → c'.sendOk = true →
          Event.sendTo k'
              (WSMessage.itemUpdated
                { it with fields := objMerge it.fields fields, updatedAt := now }) ∈
            (handleMessage s key role now (ClientMessage.itemUpdateFields itemId fields)).2) ∧
      (∀ it, mapGet s.items itemId = some it →
        ∀ k' c', (k', c') ∈ s.clients → c'.sendOk = true →
          Event.sendTo k'
              (WSMessage.itemUpdated { it with checked := checked, updatedAt := now }) ∈
            (handleMessage s key role now (ClientMessage.itemToggle itemId checked)).2) := by
  refine ⟨?_, ?_, ?_⟩
  · cases hm : mapGet s.items itemId with
    | none => simp [handleMessage, hr, hm, sendKeys]
    | some item =>
      intro hk
      simp only [handleMessage, if_neg hr, hm] at hk
      rw [show ∀ l evs, sendKeys (Event.persistItems l :: evs) = sendKeys evs
        from fun _ _ => rfl] at hk
      obtain ⟨m, hmem⟩ := sendKeys_mem hk
      obtain ⟨k', heq, hne⟩ := broadcast_events_shape _ _ _ _ hmem
      cases heq
      exact hne rfl
  · intro it hit k' c' hmem hne hok
    simp only [handleMessage, if_neg hr, hit]
    exact List.mem_cons_of_mem _
      (broadcast_delivers s.clients _ (some key) k' c' hmem
        (fun h => hne (Option.some.inj h).symm) hok)
  · intro it hit k' c' hmem hok
    simp only [handleMessage, if_neg hr, hit]
    exact List.mem_cons_of_mem _
      (broadcast_delivers s.clients _ none k' c' hmem (by simp) hok)

/-- Claim C5. A newly accepted session (its key is fresh in the registry)
receives, in this order: one items-changed message with the current
items, then — exactly when stored ledger bytes exist and are nonempty —
one crdt-sync message with the full ledger, and only after those the
presence broadcast (which it receives only if its own send succeeds).
No other message reaches it during connection handling. -/
theorem c5_snapshot_sent_before_other_broadcasts (s : DOState) (key : String)
    (c : ConnectedClient) (hk : mapGet s.clients key = none) :
    msgsTo key (connect s key c).2 =
      WSMessage.itemsChanged (mapValues s.items) ::
        ((match s.yjsDocState with
          | some d => if 0 < d.length then [WSMessage.crdtSync d] else []
          | none => []) ++
          (if c.sendOk then
            [WSMessage.presence (presenceUsers (mapSet s.clients key c))]
          else [])) := by
  have hfresh := mapSet_fresh (l := s.clients) (k := key) c hk
  have hb : msgsTo key (broadcast (mapSet s.clients key c)
      (WSMessage.presence (presenceUsers (mapSet s.clients key c))) none).2 =
      (if c.sendOk then
        [WSMessage.presence (presenceUsers (mapSet s.clients key c))] else []) := by
    rw [hfresh, broadcast_append]
    rw [show ((broadcast s.clients (WSMessage.presence
          (presenceUsers (s.clients ++ [(key, c)]))) none).1 ++
          (broadcast [(key, c)] (WSMessage.presence
            (presenceUsers (s.clients ++ [(key, c)]))) none).1,
        (broadcast s.clients (WSMessage.presence
          (presenceUsers (s.clients ++ [(key, c)]))) none).2 ++
          (broadcast [(key, c)] (WSMessage.presence
            (presenceUsers (s.clients ++ [(key, c)]))) none).2).2 =
        (broadcast s.clients (WSMessage.presence
          (presenceUsers (s.clients ++ [(key, c)]))) none).2 ++
          (broadcast [(key, c)] (WSMessage.presence
            (presenceUsers (s.clients ++ [(key, c)]))) none).2 from rfl]
    rw [msgsTo_append, msgsTo_broadcast_absent _ _ _ _ hk]
    cases hok : c.sendOk <;>
      simp [broadcast_cons, broadcast, msgsTo_cons_sendTo, msgsTo, hok]
  cases hyjs : s.yjsDocState with
  | none =>
    simp only [connect, hyjs]
    rw [msgsTo_cons_sendTo, if_pos rfl, msgsTo_append]
    simpa [msgsTo] using hb
  | some d =>
    by_cases hd : 0 < d.length
    · simp only [connect, hyjs, if_pos hd]
      rw [msgsTo_cons_sendTo, if_pos rfl, msgsTo_append]
      rw [msgsTo_cons_sendTo, if_pos rfl]
      simpa [msgsTo] using hb
    · simp only [connect, hyjs, if_neg hd]
      rw [msgsTo_cons_sendTo, if_pos rfl, msgsTo_append]
      simpa [msgsTo] using hb

/-- Claim C6, counterexample. The PATCH /item/ route answers an unknown
item id with a 404 Not-found response (modelled as the none response),
so the update operation does report an error to the caller instead of
silently no-opping as the claim states. -/
theorem c6_patch_unknown_item_reports_not_found :
    (patchItem { clients := [], items := [], yjsDocState := none } 5 "x"
        { checked := some true }).2.2 = none := by
  decide

/-- Claim C6, amended. An item-toggle or item-update-fields intent naming
an unknown item id silently no-ops (state unchanged, no reply or
broadcast of any kind), and DELETE of an unknown id leaves the item store
unchanged while still answering ok; the PATCH update route, however,
reports a 404 Not-found error for an unknown id (leaving the store
unchanged) rather than no-opping silently. -/
theorem c6_unknown_item_handling (s : DOState) (key : String) (role : Role) (now : Nat)
    (itemId : String) (checked : Bool) (fields : List (String × String)) (p : ItemPatch)
    (hu : mapGet s.items itemId = none) (hr : ¬ role = Role.viewer) :
    handleMessage s key role now (ClientMessage.itemToggle itemId checked) = (s, []) ∧
      handleMessage s key role now (ClientMessage.itemUpdateFields itemId fields) = (s, []) ∧
      (deleteItem s itemId).1.items = s.items ∧
      patchItem s now itemId p = (s, [], none) := by
  refine ⟨?_, ?_, ?_, ?_⟩
  · simp [handleMessage, hr, hu]
  · simp [handleMessage, hr, hu]
  · simp [deleteItem, mapDelete_absent hu]
  · simp [patchItem, hu]

/-- Claim C7. Every share operation that succeeds (add, update, remove)
preserves the share-set invariant: the owner's identity never appears in
the shares set and every identity appears at most once. -/
theorem c7_share_ops_preserve_invariant (meta : ListMeta)
    (userEmail allowedEmails : String) (op : ShareOp) (meta' : ListMeta)
    (hinv : sharesInvariant meta)
    (happ : applyShareOp meta userEmail allowedEmails op = some meta') :
    sharesInvariant meta' := by
  obtain ⟨hown, hnodup⟩ := hinv
  cases op with
  | add email role =>
    simp only [applyShareOp, handleAddShare] at happ
    split_ifs at happ with h1 h2 h3 h4
    rw [Option.some.injEq] at happ
    subst happ
    have howner : meta.ownerEmail = userEmail := not_not.mp (by simpa using h1)
    have hnotin : lowerString email ∉ meta.shares.map Share.email := by
      intro hmem
      apply h4
      rw [List.any_eq_true]
      obtain ⟨x, hx, hxe⟩ := List.mem_map.mp hmem
      exact ⟨x, hx, by simp [hxe]⟩
    constructor
    · intro x hx
      rcases List.mem_append.mp hx with h | h
      · exact hown x h
      · rcases List.mem_singleton.mp h with rfl
        simpa [howner] using h3
    · rw [List.map_append]
      refine List.Nodup.append hnodup (by simp) ?_
      intro a ha hb
      simp only [List.map_cons, List.map_nil, List.mem_singleton] at hb
      subst hb
      exact hnotin ha
  | update target role =>
    simp only [applyShareOp, handleUpdateShare] at happ
    split_ifs at happ with h1 h2
    rw [Option.some.injEq] at happ
    subst happ
    constructor
    · intro x hx
      have hxe : x.email ∈ (setShareRole meta.shares (lowerString target) role).map Share.email :=
        List.mem_map.mpr ⟨x, hx, rfl⟩
      rw [setShareRole_map_email] at hxe
      obtain ⟨y, hy, hye⟩ := List.mem_map.mp hxe
      rw [show x.email = y.email from hye.symm]
      exact hown y hy
    · rw [show ({ meta with shares := setShareRole meta.shares (lowerString target) role } :
          ListMeta).shares = setShareRole meta.shares (lowerString target) role from rfl,
        setShareRole_map_email]
      exact hnodup
  | remove target =>
    simp only [applyShareOp, handleRemoveShare] at happ
    split_ifs at happ with h1
    rw [Option.some.injEq] at happ
    subst happ
    constructor
    · intro x hx
      exact hown x (List.mem_of_mem_filter hx)
    · exact List.Nodup.sublist
        (List.Sublist.map Share.email (List.filter_sublist meta.shares)) hnodup

/-- Claim C8. In every broadcast, a registered, non-excluded session whose
send fails is removed from the registry, and every other registered,
non-excluded session whose send succeeds still receives the message: a
single failing peer never prevents delivery to the rest. -/
theorem c8_failed_send_pruned_others_delivered
    (clients : List (String × ConnectedClient)) (msg : WSMessage) (ex : Option String)
    (k : String) (c : ConnectedClient) (hmem : (k, c) ∈ clients) (hex : ex ≠ some k) :
    (c.sendOk = false → (k, c) ∉ (broadcast clients msg ex).1) ∧
      (c.sendOk = true → Event.sendTo k msg ∈ (broadcast clients msg ex).2) := by
  constructor
  · intro hfail hin
    obtain ⟨_, h2⟩ := broadcast_mem_fst clients msg ex (k, c) hin
    rcases h2 with h | h
    · exact hex h
    · rw [hfail] at h
      exact absurd h (by simp)
  · intro hok
    exact broadcast_delivers clients msg ex k c hmem hex hok

/-- Claim C9. POST /item with an id that already exists does not fail and
does not create a duplicate: the stored item is replaced in place (the
key column of the store is unchanged), the new store is persisted, and an
item-added message is broadcast to every connected session whose send
succeeds — the add route is an upsert keyed by item id. -/
theorem c9_post_item_is_upsert (s : DOState) (item : Item) (old : Item)
    (hnd : (s.items.map Prod.fst).Nodup) (hex : mapGet s.items item.id = some old) :
    mapGet (postItem s item).1.items item.id = some item ∧
      (postItem s item).1.items.map Prod.fst = s.items.map Prod.fst ∧
      ((postItem s item).1.items.map Prod.fst).Nodup ∧
      Event.persistItems (postItem s item).1.items ∈ (postItem s item).2 ∧
      (∀ p ∈ s.clients, p.2.sendOk = true →
        Event.sendTo p.1 (WSMessage.itemAdded item) ∈ (postItem s item).2) := by
  have hkeys := mapSet_keys_of_mem s.items item.id item old hex
  refine ⟨?_, ?_, ?_, ?_, ?_⟩
  · simp [postItem, mapGet_mapSet_self]
  · simpa [postItem] using hkeys
  · rw [show (postItem s item).1.items = mapSet s.items item.id item from rfl, hkeys]
    exact hnd
  · exact List.mem_cons_self _ _
  · intro p hp hok
    exact List.mem_cons_of_mem _
      (broadcast_delivers s.clients (WSMessage.itemAdded item) none p.1 p.2
        (by simpa using hp) (by simp) hok)

/-- Claim C10. Applying item-update-fields to an existing item stores an
item whose id and checked flag are unchanged, whose updatedAt is the
current time, and whose fields map answers the message's value on every
field the message names and the previous value on every other field; all
other items in the store are untouched. -/
theorem c10_update_fields_is_a_frame (s : DOState) (key : String) (role : Role)
    (now : Nat) (itemId : String) (fields : List (String × String)) (it : Item)
    (hr : ¬ role = Role.viewer) (hit : mapGet s.items itemId = some it) :
    ∃ it', mapGet (handleMessage s key role now
        (ClientMessage.itemUpdateFields itemId fields)).1.items itemId = some it' ∧
      it'.id = it.id ∧ it'.checked = it.checked ∧ it'.updatedAt = now ∧
      (∀ f, mapGet it'.fields f =
        match mapGet fields f with
        | some v => some v
        | none => mapGet it.fields f) ∧
      (∀ j, ¬ j = itemId → mapGet (handleMessage s key role now
        (ClientMessage.itemUpdateFields itemId fields)).1.items j = mapGet s.items j) := by
  refine ⟨{ it with fields := objMerge it.fields fields, updatedAt := now },
    ?_, rfl, rfl, rfl, ?_, ?_⟩
  · simp [handleMessage, hr, hit, mapGet_mapSet_self]
  · intro f
    exact mapGet_objMerge it.fields fields f
  · intro j hj
    simp only [handleMessage, if_neg hr, hit]
    exact mapGet_mapSet_ne s.items itemId j _ hj

/-! ### Witnesses: the universal theorems applied at concrete inputs -/

/-- Concrete state for the C2 witness. -/
def w2state : DOState :=
  { clients := [("k", { user := { email := "u@x", name := "U", color := "#000" },
                        role := Role.editor, sendOk := true })],
    items := [], yjsDocState := none }

/-- Witness for C2: a concrete non-clear-done mutation whose trace is
persist-first. -/
theorem c2_mutation_persisted_before_broadcast_witness :
    MutOp.postItemOp { id := "a", fields := [], checked := false, updatedAt := 0 } ≠
        MutOp.clearDoneOp ∧
      durableBefore false (applyMutOp w2state 3
        (MutOp.postItemOp { id := "a", fields := [], checked := false, updatedAt := 0 })).2 =
        true :=
  ⟨by decide,
    c2_mutation_persisted_before_broadcast w2state 3
      (MutOp.postItemOp { id := "a", fields := [], checked := false, updatedAt := 0 })
      (by decide)⟩

/-- Concrete state for the C4 witness. -/
def w4state : DOState :=
  { clients := [("a", { user := { email := "u@x", name := "U", color := "#000" },
                        role := Role.editor, sendOk := true }),
                ("b", { user := { email := "e@x", name := "E", color := "#000" },
                        role := Role.editor, sendOk := true })],
    items := [("i1", { id := "i1", fields := [], checked := false, updatedAt := 0 })],
    yjsDocState := none }

/-- Witness for C4: at a concrete two-session state, the toggle is echoed
to the originator and the field update is delivered to the other session. -/
theorem c4_update_fields_excludes_toggle_echoes_witness :
    (¬ Role.editor = Role.viewer) ∧
      Event.sendTo "a"
          (WSMessage.itemUpdated { id := "i1", fields := [], checked := true, updatedAt := 9 }) ∈
        (handleMessage w4state "a" Role.editor 9 (ClientMessage.itemToggle "i1" true)).2 ∧
      Event.sendTo "b"
          (WSMessage.itemUpdated
            { id := "i1", fields := [("f", "v")], checked := false, updatedAt := 9 }) ∈
        (handleMessage w4state "a" Role.editor 9
          (ClientMessage.itemUpdateFields "i1" [("f", "v")])).2 :=
  ⟨by decide,
    (c4_update_fields_excludes_toggle_echoes w4state "a" Role.editor 9 "i1" [("f", "v")] true
        (by decide)).2.2
      { id := "i1", fields := [], checked := false, updatedAt := 0 } (by decide)
      "a"
      { user := { email := "u@x", name := "U", color := "#000" },
        role := Role.editor, sendOk := true }
      (by decide) (by decide),
    (c4_update_fields_excludes_toggle_echoes w4state "a" Role.editor 9 "i1" [("f", "v")] true
        (by decide)).2.1
      { id := "i1", fields := [], checked := false, updatedAt := 0 } (by decide)
      "b"
      { user := { email := "e@x", name := "E", color := "#000" },
        role := Role.editor, sendOk := true }
      (by decide) (by decide) (by decide)⟩

/-- Concrete state for the C5 witness. -/
def w5state : DOState :=
  { clients := [("b", { user := { email := "b@x", name := "B", color := "#111" },
                        role := Role.viewer, sendOk := true })],
    items := [("i1", { id := "i1", fields := [("f", "v")], checked := false, updatedAt := 1 })],
    yjsDocState := some [7] }

/-- Concrete joining client for the C5 witness. -/
def w5client : ConnectedClient :=
  { user := { email := "a@x", name := "A", color := "#222" },
    role := Role.editor, sendOk := true }

/-- Witness for C5: the snapshot order at a concrete connect. -/
theorem c5_snapshot_sent_before_other_broadcasts_witness :
    mapGet w5state.clients "a" = none ∧
      msgsTo "a" (connect w5state "a" w5client).2 =
        WSMessage.itemsChanged (mapValues w5state.items) ::
          ((match w5state.yjsDocState with
            | some d => if 0 < d.length then [WSMessage.crdtSync d] else []
            | none => []) ++
            (if w5client.sendOk then
              [WSMessage.presence (presenceUsers (mapSet w5state.clients "a" w5client))]
            else [])) :=
  ⟨by decide, c5_snapshot_sent_before_other_broadcasts w5state "a" w5client (by decide)⟩

/-- Concrete state for the C6 witness. -/
def w6state : DOState :=
  { clients := [("k", { user := { email := "u@x", name := "U", color := "#000" },
                        role := Role.editor, sendOk := true })],
    items := [("z", { id := "z", fields := [], checked := false, updatedAt := 0 })],
    yjsDocState := none }

/-- Witness for C6: concrete unknown-id operations. -/
theorem c6_unknown_item_handling_witness :
    mapGet w6state.items "x" = none ∧ (¬ Role.editor = Role.viewer) ∧
      (handleMessage w6state "k" Role.editor 4 (ClientMessage.itemToggle "x" true) =
          (w6state, []) ∧
        handleMessage w6state "k" Role.editor 4
            (ClientMessage.itemUpdateFields "x" [("f", "v")]) = (w6state, []) ∧
        (deleteItem w6state "x").1.items = w6state.items ∧
        patchItem w6state 4 "x" { checked := some false } = (w6state, [], none)) :=
  ⟨by decide, by decide,
    c6_unknown_item_handling w6state "k" Role.editor 4 "x" true [("f", "v")]
      { checked := some false } (by decide) (by decide)⟩

/-- Concrete list metadata for the C7 witness. -/
def w7meta : ListMeta :=
  { id := "l1", name := "Camping", ownerEmail := "o@x",
    shares := [{ email := "e@x", role := ShareRole.viewer }] }

/-- The metadata produced by the C7 witness operation. -/
def w7meta2 : ListMeta :=
  { id := "l1", name := "Camping", ownerEmail := "o@x",
    shares := [{ email := "e@x", role := ShareRole.viewer },
               { email := "n@x", role := ShareRole.editor }] }

/-- Witness for C7: a concrete successful add-share preserves the
invariant. -/
theorem c7_share_ops_preserve_invariant_witness :
    sharesInvariant w7meta ∧
      applyShareOp w7meta "o@x" "e@x, n@x, o@x" (ShareOp.add "N@X" ShareRole.editor) =
        some w7meta2 ∧
      sharesInvariant w7meta2 :=
  ⟨by decide, by decide,
    c7_share_ops_preserve_invariant w7meta "o@x" "e@x, n@x, o@x"
      (ShareOp.add "N@X" ShareRole.editor) w7meta2 (by decide) (by decide)⟩

/-- Witness for C8: one failing peer among two. -/
theorem c8_failed_send_pruned_others_delivered_witness :
    ("a", ({ user := { email := "u@x", name := "U", color := "#000" },
             role := Role.editor, sendOk := false } : ConnectedClient)) ∈
        [("a", ({ user := { email := "u@x", name := "U", color := "#000" },
                  role := Role.editor, sendOk := false } : ConnectedClient)),
         ("b", ({ user := { email := "e@x", name := "E", color := "#000" },
                  role := Role.editor, sendOk := true } : ConnectedClient))] ∧
      (none : Option String) ≠ some "a" ∧
      ((({ user := { email := "u@x", name := "U", color := "#000" },
           role := Role.editor, sendOk := false } : ConnectedClient).sendOk = false →
        ("a", ({ user := { email := "u@x", name := "U", color := "#000" },
                 role := Role.editor, sendOk := false } : ConnectedClient)) ∉
          (broadcast
            [("a", ({ user := { email := "u@x", name := "U", color := "#000" },
                      role := Role.editor, sendOk := false } : ConnectedClient)),
             ("b", ({ user := { email := "e@x", name := "E", color := "#000" },
                      role := Role.editor, sendOk := true } : ConnectedClient))]
            (WSMessage.itemDeleted "z") none).1) ∧
        (({ user := { email := "u@x", name := "U", color := "#000" },
            role := Role.editor, sendOk := false } : ConnectedClient).sendOk = true →
          Event.sendTo "a" (WSMessage.itemDeleted "z") ∈
            (broadcast
              [("a", ({ user := { email := "u@x", name := "U", color := "#000" },
                        role := Role.editor, sendOk := false } : ConnectedClient)),
               ("b", ({ user := { email := "e@x", name := "E", color := "#000" },
                        role := Role.editor, sendOk := true } : ConnectedClient))]
              (WSMessage.itemDeleted "z") none).2)) :=
  ⟨by decide, by decide,
    c8_failed_send_pruned_others_delivered
      [("a", { user := { email := "u@x", name := "U", color := "#000" },
               role := Role.editor, sendOk := false }),
       ("b", { user := { email := "e@x", name := "E", color := "#000" },
               role := Role.editor, sendOk := true })]
      (WSMessage.itemDeleted "z") none "a"
      { user := { email := "u@x", name := "U", color := "#000" },
        role := Role.editor, sendOk := false }
      (by decide) (by decide)⟩

/-- Concrete state for the C9 witness. -/
def w9state : DOState :=
  { clients := [("k", { user := { email := "u@x", name := "U", color := "#000" },
                        role := Role.editor, sendOk := true })],
    items := [("a", { id := "a", fields := [("f", "old")], checked := true, updatedAt := 1 })],
    yjsDocState := none }

/-- The upserted item of the C9 witness. -/
def w9item : Item :=
  { id := "a", fields := [("f", "new")], checked := false, updatedAt := 2 }

/-- Witness for C9: upserting an existing id at a concrete store. -/
theorem c9_post_item_is_upsert_witness :
    (w9state.items.map Prod.fst).Nodup ∧
      mapGet w9state.items w9item.id =
        some { id := "a", fields := [("f", "old")], checked := true, updatedAt := 1 } ∧
      (mapGet (postItem w9state w9item).1.items w9item.id = some w9item ∧
        (postItem w9state w9item).1.items.map Prod.fst = w9state.items.map Prod.fst ∧
        ((postItem w9state w9item).1.items.map Prod.fst).Nodup ∧
        Event.persistItems (postItem w9state w9item).1.items ∈ (postItem w9state w9item).2 ∧
        (∀ p ∈ w9state.clients, p.2.sendOk = true →
          Event.sendTo p.1 (WSMessage.itemAdded w9item) ∈ (postItem w9state w9item).2)) :=
  ⟨by decide, by decide,
    c9_post_item_is_upsert w9state w9item
      { id := "a", fields := [("f", "old")], checked := true, updatedAt := 1 }
      (by decide) (by decide)⟩

/-- Concrete state for the C10 witness. -/
def w10state : DOState :=
  { clients := [("k", { user := { email := "u@x", name := "U", color := "#000" },
                        role := Role.editor, sendOk := true })],
    items := [("i1", { id := "i1", fields := [("f1", "x"), ("f2", "y")],
                       checked := true, updatedAt := 1 }),
              ("i2", { id := "i2", fields := [], checked := false, updatedAt := 0 })],
    yjsDocState := none }

/-- Witness for C10: a concrete partial field update. -/
theorem c10_update_fields_is_a_frame_witness :
    (¬ Role.editor = Role.viewer) ∧
      mapGet w10state.items "i1" =
        some { id := "i1", fields := [("f1", "x"), ("f2", "y")],
               checked := true, updatedAt := 1 } ∧
      (∃ it', mapGet (handleMessage w10state "k" Role.editor 9
          (ClientMessage.itemUpdateFields "i1" [("f2", "z"), ("f3", "w")])).1.items "i1" =
            some it' ∧
        it'.id = ({ id := "i1", fields := [("f1", "x"), ("f2", "y")],
                    checked := true, updatedAt := 1 } : Item).id ∧
        it'.checked = ({ id := "i1", fields := [("f1", "x"), ("f2", "y")],
                         checked := true, updatedAt := 1 } : Item).checked ∧
        it'.updatedAt = 9 ∧
        (∀ f, mapGet it'.fields f =
          match mapGet [("f2", "z"), ("f3", "w")] f with
          | some v => some v
          | none => mapGet ({ id := "i1", fields := [("f1", "x"), ("f2", "y")],
                              checked := true, updatedAt := 1 } : Item).fields f) ∧
        (∀ j, ¬ j = "i1" → mapGet (handleMessage w10state "k" Role.editor 9
            (ClientMessage.itemUpdateFields "i1" [("f2", "z"), ("f3", "w")])).1.items j =
          mapGet w10state.items j)) :=
  ⟨by decide, by decide,
    c10_update_fields_is_a_frame w10state "k" Role.editor 9 "i1" [("f2", "z"), ("f3", "w")]
      { id := "i1", fields := [("f1", "x"), ("f2", "y")], checked := true, updatedAt := 1 }
      (by decide) (by decide)⟩

end CollabLists
